import Mathlib

/-!
Shallow embedding of the deb packager (`src/deb/deb.go`).

The package builds a Debian binary package: an outer `ar` container holding
the `debian-binary` marker, a gzip-compressed control tar and a
gzip-compressed data tar.  Machine integers of the source (`int64` sizes,
byte values) are modelled as `Nat`; byte strings as `List Nat`; the
filesystem consulted through `os.Open`/`Stat` as a partial map from paths to
file objects.  The gzip/tar byte serialization of the standard library is
abstracted to a deterministic structural flattening (`tarGzBytes`): every
claim below depends only on the determinism of that encoding, the structural
content of the archives, and the byte lengths of raw members.
-/

deriving instance DecidableEq for Except

namespace DebPkg

/-! ## Bytes and hex rendering -/

/-- UTF8-agnostic byte view of an ASCII string (model of Go `[]byte(s)`;
all paths and rendered text in the claims are ASCII). -/
def strBytes (s : String) : List Nat := s.data.map Char.toNat

/-- Lowercase hex digit, as produced by Go `fmt` verb `%x`. -/
def hexDigitChar (n : Nat) : Char :=
  Char.ofNat (if n < 10 then 48 + n else 87 + n)

/-- Two lowercase hex digits for one byte. -/
def byteHex (b : Nat) : List Char :=
  [hexDigitChar (b / 16), hexDigitChar (b % 16)]

/-- Go `fmt.Sprintf("%x", bytes)`: lowercase hex of a byte slice. -/
def bytesToHex (bs : List Nat) : String :=
  String.mk (bs.map byteHex).flatten

/-! ## MD5 (RFC 1321), the model of Go `crypto/md5`

32-bit words are `Nat` values kept below `2 ^ 32` by explicit `% 4294967296`.
-/

/-- Left rotation within 32 bits. -/
def rotl32 (x n : Nat) : Nat :=
  ((x <<< n) % 4294967296) ||| (x >>> (32 - n))

/-- The 64 round constants `K[i] = floor(abs(sin(i+1)) * 2^32)`. -/
def md5K : List Nat :=
  [0xd76aa478, 0xe8c7b756, 0x242070db, 0xc1bdceee,
   0xf57c0faf, 0x4787c62a, 0xa8304613, 0xfd469501,
   0x698098d8, 0x8b44f7af, 0xffff5bb1, 0x895cd7be,
   0x6b901122, 0xfd987193, 0xa679438e, 0x49b40821,
   0xf61e2562, 0xc040b340, 0x265e5a51, 0xe9b6c7aa,
   0xd62f105d, 0x02441453, 0xd8a1e681, 0xe7d3fbc8,
   0x21e1cde6, 0xc33707d6, 0xf4d50d87, 0x455a14ed,
   0xa9e3e905, 0xfcefa3f8, 0x676f02d9, 0x8d2a4c8a,
   0xfffa3942, 0x8771f681, 0x6d9d6122, 0xfde5380c,
   0xa4beea44, 0x4bdecfa9, 0xf6bb4b60, 0xbebfbc70,
   0x289b7ec6, 0xeaa127fa, 0xd4ef3085, 0x04881d05,
   0xd9d4d039, 0xe6db99e5, 0x1fa27cf8, 0xc4ac5665,
   0xf4292244, 0x432aff97, 0xab9423a7, 0xfc93a039,
   0x655b59c3, 0x8f0ccc92, 0xffeff47d, 0x85845dd1,
   0x6fa87e4f, 0xfe2ce6e0, 0xa3014314, 0x4e0811a1,
   0xf7537e82, 0xbd3af235, 0x2ad7d2bb, 0xeb86d391]

/-- The 64 per-round left-rotation amounts. -/
def md5S : List Nat :=
  [7, 12, 17, 22, 7, 12, 17, 22, 7, 12, 17, 22, 7, 12, 17, 22,
   5, 9, 14, 20, 5, 9, 14, 20, 5, 9, 14, 20, 5, 9, 14, 20,
   4, 11, 16, 23, 4, 11, 16, 23, 4, 11, 16, 23, 4, 11, 16, 23,
   6, 10, 15, 21, 6, 10, 15, 21, 6, 10, 15, 21, 6, 10, 15, 21]

/-- Little-endian 32-bit words from a 64-byte block. -/
def leWords : List Nat → List Nat
  | b0 :: b1 :: b2 :: b3 :: rest =>
      (b0 + 256 * b1 + 65536 * b2 + 16777216 * b3) :: leWords rest
  | _ => []

/-- One MD5 round applied to the running `(A, B, C, D)` state. -/
def md5Step (M : List Nat) (st : Nat × Nat × Nat × Nat) (i : Nat) :
    Nat × Nat × Nat × Nat :=
  let (a, b, c, d) := st
  let f :=
    if i < 16 then (b &&& c) ||| ((4294967295 - b) &&& d)
    else if i < 32 then (d &&& b) ||| ((4294967295 - d) &&& c)
    else if i < 48 then b ^^^ c ^^^ d
    else c ^^^ (b ||| (4294967295 - d))
  let g :=
    if i < 16 then i
    else if i < 32 then (5 * i + 1) % 16
    else if i < 48 then (3 * i + 5) % 16
    else (7 * i) % 16
  let tmp := (f + a + md5K.getD i 0 + M.getD g 0) % 4294967296
  (d, (b + rotl32 tmp (md5S.getD i 0)) % 4294967296, b, c)

/-- Process one 64-byte chunk, adding the round result to the running state. -/
def md5Chunk (st : Nat × Nat × Nat × Nat) (chunk : List Nat) :
    Nat × Nat × Nat × Nat :=
  let M := leWords chunk
  let (a0, b0, c0, d0) := st
  let (a, b, c, d) := (List.range 64).foldl (md5Step M) st
  ((a0 + a) % 4294967296, (b0 + b) % 4294967296,
   (c0 + c) % 4294967296, (d0 + d) % 4294967296)

/-- Split a byte list into 64-byte chunks; the fuel argument (any bound on
the list length) keeps the recursion structural so that concrete digests
evaluate by kernel reduction. -/
def chunks64Aux : Nat → List Nat → List (List Nat)
  | 0, _ => []
  | _ + 1, [] => []
  | fuel + 1, l => l.take 64 :: chunks64Aux fuel (l.drop 64)

/-- Split a byte list into 64-byte chunks. -/
def chunks64 (l : List Nat) : List (List Nat) :=
  chunks64Aux l.length l

/-- Four bytes, little-endian, of a 32-bit word. -/
def le4 (n : Nat) : List Nat :=
  [n % 256, n / 256 % 256, n / 65536 % 256, n / 16777216 % 256]

/-- Eight bytes, little-endian, of a 64-bit value. -/
def le8 (n : Nat) : List Nat :=
  le4 (n % 4294967296) ++ le4 (n / 4294967296)

/-- MD5 digest (16 bytes) of a byte sequence. -/
def md5 (msg : List Nat) : List Nat :=
  let bitLen := (8 * msg.length) % 18446744073709551616
  let z := (120 - ((msg.length + 1) % 64)) % 64
  let padded := msg ++ 128 :: (List.replicate z 0 ++ le8 bitLen)
  let st := (chunks64 padded).foldl md5Chunk
    (0x67452301, 0xefcdab89, 0x98badcfe, 0x10325476)
  le4 st.1 ++ le4 st.2.1 ++ le4 st.2.2.1 ++ le4 st.2.2.2

/-- Hex rendering of the MD5 digest, as in the source's
`fmt.Fprintf(&md5buf, "%x  %s\n", digest.Sum(md5tmp), ...)`. -/
def md5hex (msg : List Nat) : String := bytesToHex (md5 msg)

/-! ## Data model (`pkg.Info`, `pkg.File`, the filesystem) -/

/-- Model of `pkg.Info`: the package metadata consumed by the control template.
Field names follow the Go struct; `section` is a Lean keyword, hence `sect`. -/
structure Info where
  name : String
  version : String
  sect : String
  priority : String
  arch : String
  maintainer : String
  vendor : String
  replaces : String
  provides : String
  depends : List String
  conflicts : List String
  homepage : String
  description : String
deriving DecidableEq, Repr

/-- Model of `pkg.File`: a (source path, destination path) entry. -/
structure File where
  src : String
  dst : String
deriving DecidableEq, Repr

/-- A filesystem object as observed through `os.Open` + `File.Stat`.
`statFails` models the `error` result of the `Stat` call on the opened
handle (the Go API allows it to fail independently of `Open`). -/
structure FSFile where
  isDir : Bool
  contents : List Nat
  mode : Nat
  statFails : Bool
deriving DecidableEq, Repr

/-- The filesystem: `os.Open` succeeds exactly on paths in the map. -/
def FS := String → Option FSFile

/-! ## Archive structures -/

/-- The claim-relevant fields of a `tar.Header`. -/
structure TarHeader where
  name : String
  size : Nat
  mode : Nat
  mtime : Nat
deriving DecidableEq, Repr

/-- One entry of a tar stream: header plus body bytes. -/
structure TarEntry where
  header : TarHeader
  body : List Nat
deriving DecidableEq, Repr

/-- Body of an `ar` member: either raw bytes (`debian-binary`) or a
gzip-compressed tar stream kept structurally. -/
inductive ArBody where
  | raw (bytes : List Nat)
  | targz (entries : List TarEntry)
deriving DecidableEq, Repr

/-- Model of the serialized `gzip(tar(entries))` byte stream.  The exact
DEFLATE/tar block layout of the Go standard library is abstracted to a
deterministic flattening of headers and bodies; the claims depend only on
this encoding being a fixed deterministic function of the entries. -/
def tarGzBytes (es : List TarEntry) : List Nat :=
  es.foldr
    (fun e acc =>
      strBytes e.header.name ++ 0 :: strBytes (toString e.header.size) ++
      0 :: strBytes (toString e.header.mode) ++
      0 :: strBytes (toString e.header.mtime) ++ 0 :: e.body ++ acc)
    []

/-- Byte view of an `ar` member body. -/
def arBodyBytes : ArBody → List Nat
  | .raw bs => bs
  | .targz es => tarGzBytes es

/-- An `ar` member: the header fields written by `ar.WriteHeader` plus the
member body. -/
structure ArMember where
  name : String
  size : Nat
  mode : Nat
  mtime : Nat
  body : ArBody
deriving DecidableEq, Repr

/-- The final deb output: the `ar` global header (`!<arch>\n`) followed by
the members in write order. -/
structure Deb where
  global : List Nat
  members : List ArMember
deriving DecidableEq, Repr

/-- Errors surfaced by the build.  `sliceOutOfRange` models the Go runtime
panic raised by `header.Name[2:]` when the name is shorter than 2 bytes —
a crash, not an `error` return value. -/
inductive DataErr where
  | openFail (path : String)
  | sliceOutOfRange
deriving DecidableEq, Repr

/-- Result triple of `createDataTarGz`: the data tar entries, the md5sums
ledger text and the installed size in bytes. -/
structure DataResult where
  entries : List TarEntry
  md5sums : String
  instSize : Nat
deriving DecidableEq, Repr

/-! ## `createDataTarGz` -/

/-- Model of `createDataTarGz` (`src/deb/deb.go:63`).  For each entry in
input order: open the source (abort on failure), skip it when `Stat` fails
or reports a directory, otherwise emit a tar entry for the destination path
with the file's size and mode and the shared timestamp, stream the contents
(`io.Copy(out, f)` — this leaves the handle at EOF), then digest whatever a
second read of the same handle returns (`io.Copy(out, io.TeeReader(f,
digest))` reads `contents.drop contents.length`, i.e. nothing) and append
the ledger line `"<hex>  <dst minus first 2 chars>\n"`, where the slice
`header.Name[2:]` panics if the destination is shorter than 2. -/
def createDataTarGz (now : Nat) (files : List File) (fs : FS) :
    Except DataErr DataResult :=
  match files with
  | [] => .ok ⟨[], "", 0⟩
  | f :: rest =>
    match fs f.src with
    | none => .error (.openFail f.src)
    | some o =>
      if o.statFails || o.isDir then
        createDataTarGz now rest fs
      else
        let body := o.contents
        let digestInput := o.contents.drop body.length
        if f.dst.length < 2 then
          .error .sliceOutOfRange
        else
          match createDataTarGz now rest fs with
          | .error e => .error e
          | .ok r =>
            .ok ⟨⟨⟨f.dst, o.contents.length, o.mode, now⟩, body⟩ :: r.entries,
                 (md5hex digestInput ++ "  " ++ f.dst.drop 2 ++ "\n") ++
                   r.md5sums,
                 o.contents.length + r.instSize⟩

/-! ## `createControl` -/

/-- Go `strings.Trim(s, " ")`: strip leading and trailing space characters. -/
def trimSpaces (s : String) : String :=
  String.mk (((s.data.dropWhile (· == ' ')).reverse.dropWhile (· == ' ')).reverse)

/-- The template function `join`: `strings.Trim(strings.Join(strs, ", "), " ")`. -/
def joinStrs (strs : List String) : String :=
  trimSpaces (String.intercalate ", " strs)

/-- Rendering of `controlTemplate` (`src/deb/deb.go:114`) with the template
data `controlData{Info: info, InstalledSize: kib}`. -/
def renderControl (info : Info) (kib : Nat) : String :=
  "Package: " ++ info.name ++ "\n" ++
  "Version: " ++ info.version ++ "\n" ++
  "Section: " ++ info.sect ++ "\n" ++
  "Priority: " ++ info.priority ++ "\n" ++
  "Architecture: " ++ info.arch ++ "\n" ++
  "Maintainer: " ++ info.maintainer ++ "\n" ++
  "Vendor: " ++ info.vendor ++ "\n" ++
  "Installed-Size: " ++ toString kib ++ "\n" ++
  "Replaces: " ++ info.replaces ++ "\n" ++
  "Provides: " ++ info.provides ++ "\n" ++
  "Depends: " ++ joinStrs info.depends ++ "\n" ++
  "Conflicts: " ++ joinStrs info.conflicts ++ "\n" ++
  "Homepage: " ++ info.homepage ++ "\n" ++
  "Description: " ++ info.description ++ "\n"

/-- Model of `createControl` (`src/deb/deb.go:135`): a control tar with
exactly two entries — the rendered control record (installed size divided
by 1024, truncating) and the md5sums ledger — both with mode `0644` and the
shared timestamp.  Template execution and buffer writes cannot fail in the
model, so the result is total. -/
def createControl (now : Nat) (instSize : Nat) (md5sums : String)
    (info : Info) : List TarEntry :=
  let body := renderControl info (instSize / 1024)
  [⟨⟨"control", (strBytes body).length, 0o644, now⟩, strBytes body⟩,
   ⟨⟨"md5sums", (strBytes md5sums).length, 0o644, now⟩, strBytes md5sums⟩]

/-! ## `addArFile` and `Package` -/

/-- Model of `addArFile` (`src/deb/deb.go:49`): an `ar` header carrying the
name, the body byte length, mode `0644` and the shared timestamp, followed
by the body. -/
def addArFile (now : Nat) (name : String) (body : ArBody) : ArMember :=
  ⟨name, (arBodyBytes body).length, 0o644, now, body⟩

/-- Model of `Package` (`src/deb/deb.go:22`): build the data archive, then
the control archive, then assemble the `ar` container with the global
header and the members `debian-binary` (literal `"2.0\n"`),
`control.tar.gz`, `data.tar.gz`, in that order, all stamped with the single
timestamp taken once at the start. -/
def Package (now : Nat) (info : Info) (files : List File) (fs : FS) :
    Except DataErr Deb :=
  match createDataTarGz now files fs with
  | .error e => .error e
  | .ok r =>
    .ok ⟨strBytes "!<arch>\n",
         [addArFile now "debian-binary" (.raw (strBytes "2.0\n")),
          addArFile now "control.tar.gz"
            (.targz (createControl now r.instSize r.md5sums info)),
          addArFile now "data.tar.gz" (.targz r.entries)]⟩

/-! ## Derived notions used by the claims -/

/-- The entry's source is a regular file: it opens, and `Stat` reports a
non-directory (stat success is the environmental reading of "is a regular
file"; theorems that use it assume stat does not fail spuriously). -/
def regFile (fs : FS) (f : File) : Bool :=
  match fs f.src with
  | some o => !o.isDir
  | none => false

/-- On-disk byte size of an entry's source. -/
def srcSize (fs : FS) (f : File) : Nat :=
  match fs f.src with
  | some o => o.contents.length
  | none => 0

/-- The ledger line the code actually appends for a processed file: the
digest of the *empty* second read, two spaces, the destination minus its
first two characters, newline. -/
def emptyDigestLine (f : File) : String :=
  md5hex [] ++ "  " ++ f.dst.drop 2 ++ "\n"

/-- Predicate that `Stat` succeeds on the entry's source (the environmental assumption
under which "is a regular file" is observable by the code). -/
def statOk (fs : FS) (f : File) : Bool :=
  (fs f.src).all fun o => !o.statFails

/-- The expected ledger: one line per regular-file entry, in input order,
directories contributing nothing. -/
def ledgerOf (fs : FS) (files : List File) : String :=
  ((files.filter (regFile fs)).map emptyDigestLine).foldr (· ++ ·) ""

/-- Every archive-member header timestamp, across all three layers: the
`ar` member headers and the tar entry headers inside both `.tar.gz`
members. -/
def allMtimes (d : Deb) : List Nat :=
  d.members.map (·.mtime) ++
  (d.members.map fun m =>
    match m.body with
    | .raw _ => []
    | .targz es => es.map (·.header.mtime)).flatten

/-- String view of ASCII body bytes. -/
def bytesToStr (bs : List Nat) : String :=
  String.mk (bs.map Char.ofNat)

/-- Split a character list at newlines (semantics of `splitOn "\n"`,
written with structural recursion so concrete instances evaluate). -/
def splitNL : List Char → List (List Char)
  | [] => [[]]
  | c :: rest =>
    match splitNL rest with
    | [] => [[]]
    | l :: ls => if c = '\n' then [] :: l :: ls else (c :: l) :: ls

/-- The lines of a string. -/
def linesOf (s : String) : List String :=
  (splitNL s.data).map String.mk

/-- The lines of the control record inside a finished build (member 2,
first tar entry), for evaluating builds at concrete inputs. -/
def debControlLines (x : Except DataErr Deb) : List String :=
  match x with
  | .error _ => []
  | .ok d =>
    match d.members with
    | [_, m, _] =>
      match m.body with
      | .targz (e :: _) => linesOf (bytesToStr e.body)
      | _ => []
    | _ => []

/-! ## Concrete fixtures for witnesses and counterexamples -/

/-- A concrete `pkg.Info` (the spec's scenario §8.6). -/
def demoInfo : Info :=
  ⟨"demo", "1.0", "default", "optional", "amd64", "maint", "acme",
   "", "", ["libc"], [], "https://example.com", "Demo package"⟩

/-- Filesystem with one 4096-byte regular file (spec scenario §8.6). -/
def demoFS : FS := fun p =>
  if p = "/tmp/f.txt" then some ⟨false, List.replicate 4096 97, 420, false⟩
  else none

/-- The scenario's single file entry. -/
def demoFiles : List File := [⟨"/tmp/f.txt", "./usr/bin/f"⟩]

/-- Filesystem holding a one-byte regular file `"a"` plus a directory. -/
def smallFS : FS := fun p =>
  if p = "/tmp/a" then some ⟨false, [97], 420, false⟩
  else if p = "/tmp/d" then some ⟨true, [], 509, false⟩
  else none

/-- Filesystem whose only file opens fine but fails to `Stat`. -/
def statFailFS : FS := fun p =>
  if p = "/s" then some ⟨false, [104, 105], 420, true⟩ else none

/-- Like `smallFS` on the paths of interest, but holding one extra
unrelated file — used to witness that the build reads nothing outside the
listed sources. -/
def smallFS2 : FS := fun p =>
  if p = "/tmp/a" then some ⟨false, [97], 420, false⟩
  else if p = "/tmp/d" then some ⟨true, [], 509, false⟩
  else if p = "/unrelated" then some ⟨false, [1, 2, 3], 493, false⟩
  else none

/-- Two-entry fixture: a regular file followed by a directory. -/
def mixedFiles : List File := [⟨"/tmp/a", "./x"⟩, ⟨"/tmp/d", "./d"⟩]

/-! ## Step equations for `createDataTarGz` -/

theorem createDataTarGz_nil (now : Nat) (fs : FS) :
    createDataTarGz now [] fs = .ok ⟨[], "", 0⟩ := rfl

theorem createDataTarGz_openFail (now : Nat) (f : File) (rest : List File)
    (fs : FS) (h : fs f.src = none) :
    createDataTarGz now (f :: rest) fs = .error (.openFail f.src) := by
  simp only [createDataTarGz, h]

theorem createDataTarGz_skip (now : Nat) (f : File) (rest : List File)
    (fs : FS) (o : FSFile) (h : fs f.src = some o)
    (hs : (o.statFails || o.isDir) = true) :
    createDataTarGz now (f :: rest) fs = createDataTarGz now rest fs := by
  simp only [createDataTarGz, h, hs, if_true]

theorem createDataTarGz_panic (now : Nat) (f : File) (rest : List File)
    (fs : FS) (o : FSFile) (h : fs f.src = some o)
    (hs : (o.statFails || o.isDir) = false) (hd : f.dst.length < 2) :
    createDataTarGz now (f :: rest) fs = .error .sliceOutOfRange := by
  simp only [createDataTarGz, h, hs, Bool.false_eq_true, if_false, hd, if_true]

theorem createDataTarGz_reg (now : Nat) (f : File) (rest : List File)
    (fs : FS) (o : FSFile) (h : fs f.src = some o)
    (hs : (o.statFails || o.isDir) = false) (hd : ¬ f.dst.length < 2) :
    createDataTarGz now (f :: rest) fs =
      match createDataTarGz now rest fs with
      | .error e => .error e
      | .ok r =>
        .ok ⟨⟨⟨f.dst, o.contents.length, o.mode, now⟩, o.contents⟩ :: r.entries,
             emptyDigestLine f ++ r.md5sums,
             o.contents.length + r.instSize⟩ := by
  simp only [createDataTarGz, h, hs, Bool.false_eq_true, if_false, hd,
    List.drop_length, emptyDigestLine]

/-! ## Step equations for `Package` -/

theorem Package_error (now : Nat) (info : Info) (files : List File) (fs : FS)
    (e : DataErr) (h : createDataTarGz now files fs = .error e) :
    Package now info files fs = .error e := by
  simp only [Package, h]

theorem Package_ok (now : Nat) (info : Info) (files : List File) (fs : FS)
    (r : DataResult) (h : createDataTarGz now files fs = .ok r) :
    Package now info files fs =
      .ok ⟨strBytes "!<arch>\n",
           [addArFile now "debian-binary" (.raw (strBytes "2.0\n")),
            addArFile now "control.tar.gz"
              (.targz (createControl now r.instSize r.md5sums info)),
            addArFile now "data.tar.gz" (.targz r.entries)]⟩ := by
  simp only [Package, h]

/-- A regular-file entry has a non-directory object behind its source. -/
theorem regFile_of_some (fs : FS) (f : File) (o : FSFile)
    (h : fs f.src = some o) (hdir : o.isDir = false) :
    regFile fs f = true := by
  simp only [regFile, h, hdir, Bool.not_false]

/-- A missing source aborts `createDataTarGz` with an `openFail` naming one
of the input source paths, provided no entry triggers the slice panic
first. -/
theorem createDataTarGz_openFail_of_missing (now : Nat) (fs : FS) :
    ∀ (files : List File) (f : File), f ∈ files → fs f.src = none →
      (∀ g ∈ files, regFile fs g = true → 2 ≤ g.dst.length) →
      ∃ p, fs p = none ∧ p ∈ files.map (·.src) ∧
        createDataTarGz now files fs = .error (.openFail p) := by
  intro files
  induction files with
  | nil => intro f hf; cases hf
  | cons g rest ih =>
    intro f hf hnone hlen
    cases hfs : fs g.src with
    | none =>
      exact ⟨g.src, hfs, by simp,
        createDataTarGz_openFail now g rest fs hfs⟩
    | some o =>
      have hfr : f ∈ rest := by
        rcases List.mem_cons.mp hf with rfl | hr
        · rw [hnone] at hfs; cases hfs
        · exact hr
      have hlen' : ∀ x ∈ rest, regFile fs x = true → 2 ≤ x.dst.length :=
        fun x hx => hlen x (List.mem_cons_of_mem g hx)
      by_cases hs : (o.statFails || o.isDir) = true
      · rw [createDataTarGz_skip now g rest fs o hfs hs]
        obtain ⟨p, h1, h2, h3⟩ := ih f hfr hnone hlen'
        exact ⟨p, h1, by simp [List.mem_map] at h2 ⊢; tauto, h3⟩
      · have hs' : (o.statFails || o.isDir) = false := by
          simpa using hs
        have hdir : o.isDir = false := by
          rcases Bool.or_eq_false_iff.mp hs' with ⟨_, h2⟩; exact h2
        have hreg : regFile fs g = true := regFile_of_some fs g o hfs hdir
        have hd : ¬ g.dst.length < 2 := by
          have := hlen g (List.mem_cons_self g rest) hreg; omega
        rw [createDataTarGz_reg now g rest fs o hfs hs' hd]
        obtain ⟨p, h1, h2, h3⟩ := ih f hfr hnone hlen'
        rw [h3]
        exact ⟨p, h1, by simp [List.mem_map] at h2 ⊢; tauto, rfl⟩

/-- Main loop invariant of `createDataTarGz`: on success (and with no
spurious stat failures) the ledger is one line per regular-file entry in
input order and the installed size is the byte sum of the regular files. -/
theorem createDataTarGz_ok_spec (now : Nat) (fs : FS) :
    ∀ (files : List File) (r : DataResult),
      (∀ f ∈ files, statOk fs f = true) →
      createDataTarGz now files fs = .ok r →
      r.md5sums = ledgerOf fs files ∧
      r.instSize = ((files.filter (regFile fs)).map (srcSize fs)).sum := by
  intro files
  induction files with
  | nil =>
    intro r _ hok
    rw [createDataTarGz_nil] at hok
    cases hok
    simp [ledgerOf]
  | cons g rest ih =>
    intro r hstat hok
    have hstat' : ∀ f ∈ rest, statOk fs f = true :=
      fun f hf => hstat f (List.mem_cons_of_mem g hf)
    cases hfs : fs g.src with
    | none =>
      rw [createDataTarGz_openFail now g rest fs hfs] at hok; cases hok
    | some o =>
      have hsf : o.statFails = false := by
        have h := hstat g (List.mem_cons_self g rest)
        simpa [statOk, hfs] using h
      by_cases hdir : o.isDir = true
      · have hs : (o.statFails || o.isDir) = true := by simp [hdir]
        rw [createDataTarGz_skip now g rest fs o hfs hs] at hok
        have hreg : regFile fs g = false := by simp [regFile, hfs, hdir]
        obtain ⟨h1, h2⟩ := ih r hstat' hok
        refine ⟨?_, ?_⟩
        · rw [h1]; simp [ledgerOf, List.filter_cons, hreg]
        · rw [h2]; simp [List.filter_cons, hreg]
      · have hdir' : o.isDir = false := by simpa using hdir
        have hs' : (o.statFails || o.isDir) = false := by simp [hsf, hdir']
        have hreg : regFile fs g = true := regFile_of_some fs g o hfs hdir'
        by_cases hd : g.dst.length < 2
        · rw [createDataTarGz_panic now g rest fs o hfs hs' hd] at hok
          cases hok
        · rw [createDataTarGz_reg now g rest fs o hfs hs' hd] at hok
          cases hrec : createDataTarGz now rest fs with
          | error e => rw [hrec] at hok; cases hok
          | ok r' =>
            rw [hrec] at hok
            cases hok
            obtain ⟨h1, h2⟩ := ih r' hstat' hrec
            refine ⟨?_, ?_⟩
            · rw [h1]; simp [ledgerOf, List.filter_cons, hreg]
            · rw [h2]; simp [List.filter_cons, hreg, srcSize, hfs]

/-- All tar headers produced by the data-archive loop carry the shared
build timestamp. -/
theorem createDataTarGz_entries_mtime (now : Nat) (fs : FS) :
    ∀ (files : List File) (r : DataResult),
      createDataTarGz now files fs = .ok r →
      ∀ e ∈ r.entries, e.header.mtime = now := by
  intro files
  induction files with
  | nil =>
    intro r hok
    rw [createDataTarGz_nil] at hok
    cases hok
    intro e he; cases he
  | cons g rest ih =>
    intro r hok
    cases hfs : fs g.src with
    | none =>
      rw [createDataTarGz_openFail now g rest fs hfs] at hok; cases hok
    | some o =>
      by_cases hs : (o.statFails || o.isDir) = true
      · rw [createDataTarGz_skip now g rest fs o hfs hs] at hok
        exact ih r hok
      · have hs' : (o.statFails || o.isDir) = false := by simpa using hs
        by_cases hd : g.dst.length < 2
        · rw [createDataTarGz_panic now g rest fs o hfs hs' hd] at hok
          cases hok
        · rw [createDataTarGz_reg now g rest fs o hfs hs' hd] at hok
          cases hrec : createDataTarGz now rest fs with
          | error e => rw [hrec] at hok; cases hok
          | ok r' =>
            rw [hrec] at hok
            cases hok
            intro e he
            rcases List.mem_cons.mp he with rfl | he'
            · rfl
            · exact ih r' hrec e he'

/-- The data-archive loop consults the filesystem only at the listed
source paths: two filesystems agreeing there produce identical results. -/
theorem createDataTarGz_congr (now : Nat) :
    ∀ (files : List File) (fs1 fs2 : FS),
      (∀ f ∈ files, fs1 f.src = fs2 f.src) →
      createDataTarGz now files fs1 = createDataTarGz now files fs2 := by
  intro files
  induction files with
  | nil => intro fs1 fs2 _; rfl
  | cons g rest ih =>
    intro fs1 fs2 hag
    have hg : fs1 g.src = fs2 g.src := hag g (List.mem_cons_self g rest)
    have hag' : ∀ f ∈ rest, fs1 f.src = fs2 f.src :=
      fun f hf => hag f (List.mem_cons_of_mem g hf)
    have hrec := ih fs1 fs2 hag'
    cases hfs : fs2 g.src with
    | none =>
      rw [createDataTarGz_openFail now g rest fs1 (hg.trans hfs),
        createDataTarGz_openFail now g rest fs2 hfs]
    | some o =>
      by_cases hs : (o.statFails || o.isDir) = true
      · rw [createDataTarGz_skip now g rest fs1 o (hg.trans hfs) hs,
          createDataTarGz_skip now g rest fs2 o hfs hs]
        exact hrec
      · have hs' : (o.statFails || o.isDir) = false := by simpa using hs
        by_cases hd : g.dst.length < 2
        · rw [createDataTarGz_panic now g rest fs1 o (hg.trans hfs) hs' hd,
            createDataTarGz_panic now g rest fs2 o hfs hs' hd]
        · rw [createDataTarGz_reg now g rest fs1 o (hg.trans hfs) hs' hd,
            createDataTarGz_reg now g rest fs2 o hfs hs' hd, hrec]

/-! ## Claim theorems -/

set_option maxRecDepth 100000 in
/-- C1: the claim says every ledger line carries the MD5 of the file's
actual bytes.  The code digests a second read of the already-exhausted
handle, so the ledger of a one-byte file `"a"` (destination `./x`) carries
`d41d8cd98f00b204e9800998ecf8427e` — the MD5 of the empty input — while the
MD5 of the actual byte `97` is `0cc175b9c0f1b6a831c399e269772661`.  The
path part (`x`, destination minus two characters) is as claimed. -/
theorem c1_ledger_digest_is_md5_of_empty_input :
    smallFS "/tmp/a" = some ⟨false, [97], 420, false⟩
    ∧ (createDataTarGz 7 [⟨"/tmp/a", "./x"⟩] smallFS).toOption.map
        (·.md5sums) = some ("d41d8cd98f00b204e9800998ecf8427e" ++ "  x\n")
    ∧ md5hex [97] = "0cc175b9c0f1b6a831c399e269772661"
    ∧ md5hex [] = "d41d8cd98f00b204e9800998ecf8427e" := by
  refine ⟨rfl, by decide, by decide, by decide⟩

set_option maxRecDepth 100000 in
/-- C2 counterexample: a source file that opens but fails to `Stat` does
not abort the build — `Package` succeeds, contradicting the claim that a
stat failure aborts with an error. -/
theorem c2_stat_failure_build_still_succeeds :
    statFailFS "/s" = some ⟨false, [104, 105], 420, true⟩
    ∧ (Package 7 demoInfo [⟨"/s", "./x"⟩] statFailFS).toOption.isSome
        = true := by
  exact ⟨rfl, by decide⟩

/-- C2 (amended): an entry whose opened source fails to `Stat` is silently
skipped, exactly like a directory; a source that cannot be *opened* aborts
the whole build immediately with an error identifying an offending input
path, and no partial archive is returned as a successful result. -/
theorem c2_open_failure_aborts_stat_failure_skips :
    (∀ (now : Nat) (info : Info) (f : File) (rest : List File) (fs : FS)
        (o : FSFile), fs f.src = some o → o.statFails = true →
        Package now info (f :: rest) fs = Package now info rest fs)
    ∧ (∀ (now : Nat) (info : Info) (files : List File) (fs : FS) (f : File),
        f ∈ files → fs f.src = none →
        (∀ g ∈ files, regFile fs g = true → 2 ≤ g.dst.length) →
        ∃ p, fs p = none ∧ p ∈ files.map (·.src) ∧
          Package now info files fs = .error (.openFail p)) := by
  constructor
  · intro now info f rest fs o h hstat
    have hs : (o.statFails || o.isDir) = true := by simp [hstat]
    simp only [Package, createDataTarGz_skip now f rest fs o h hs]
  · intro now info files fs f hf hnone hlen
    obtain ⟨p, h1, h2, h3⟩ :=
      createDataTarGz_openFail_of_missing now fs files f hf hnone hlen
    exact ⟨p, h1, h2, Package_error now info files fs _ h3⟩

/-- C2 witness: the amended theorem applied at concrete inputs — a
stat-failing entry is dropped from the build, and a missing source path
`/nope` aborts the build with an error naming it. -/
theorem c2_open_failure_aborts_stat_failure_skips_witness :
    Package 7 demoInfo [⟨"/s", "./x"⟩] statFailFS
      = Package 7 demoInfo [] statFailFS
    ∧ Package 7 demoInfo [⟨"/nope", "./x"⟩] smallFS
      = .error (.openFail "/nope") := by
  constructor
  · exact c2_open_failure_aborts_stat_failure_skips.1 7 demoInfo
      ⟨"/s", "./x"⟩ [] statFailFS ⟨false, [104, 105], 420, true⟩ rfl rfl
  · obtain ⟨p, h1, h2, h3⟩ :=
      c2_open_failure_aborts_stat_failure_skips.2 7 demoInfo
        [⟨"/nope", "./x"⟩] smallFS ⟨"/nope", "./x"⟩ (by decide) rfl
        (by decide)
    simp only [List.map_cons, List.map_nil, List.mem_singleton] at h2
    rw [h2] at h3
    exact h3

/-- C10: the data-archive build is total on regular-file entries only when
every such destination path has length at least 2: under that precondition
the slice panic is unreachable, and a regular file with the 1-character
destination `"x"` makes the build panic (modelled as the distinguished
`sliceOutOfRange` outcome, a crash rather than an error return). -/
theorem c10_short_destination_panics :
    (∀ (now : Nat) (files : List File) (fs : FS),
        (∀ f ∈ files, regFile fs f = true → 2 ≤ f.dst.length) →
        createDataTarGz now files fs ≠ .error .sliceOutOfRange)
    ∧ createDataTarGz 7 [⟨"/tmp/a", "x"⟩] smallFS
        = .error .sliceOutOfRange := by
  constructor
  · intro now files fs
    induction files with
    | nil => intro _ h; cases h
    | cons g rest ih =>
      intro hlen
      have hlen' : ∀ x ∈ rest, regFile fs x = true → 2 ≤ x.dst.length :=
        fun x hx => hlen x (List.mem_cons_of_mem g hx)
      cases hfs : fs g.src with
      | none =>
        rw [createDataTarGz_openFail now g rest fs hfs]
        intro h; cases h
      | some o =>
        by_cases hs : (o.statFails || o.isDir) = true
        · rw [createDataTarGz_skip now g rest fs o hfs hs]
          exact ih hlen'
        · have hs' : (o.statFails || o.isDir) = false := by simpa using hs
          have hdir : o.isDir = false :=
            (Bool.or_eq_false_iff.mp hs').2
          have hreg : regFile fs g = true := regFile_of_some fs g o hfs hdir
          have hd : ¬ g.dst.length < 2 := by
            have := hlen g (List.mem_cons_self g rest) hreg; omega
          rw [createDataTarGz_reg now g rest fs o hfs hs' hd]
          cases hrec : createDataTarGz now rest fs with
          | error e =>
            cases e with
            | openFail p => intro h; cases h
            | sliceOutOfRange => exact absurd hrec (ih hlen')
          | ok r => intro h; cases h
  · decide

/-- C10 witness: the no-panic direction applied at a concrete input whose
single regular-file destination `./x` has length 2. -/
theorem c10_short_destination_panics_witness :
    createDataTarGz 7 [⟨"/tmp/a", "./x"⟩] smallFS
      ≠ .error .sliceOutOfRange :=
  c10_short_destination_panics.1 7 [⟨"/tmp/a", "./x"⟩] smallFS (by decide)

/-- C4: on a successful build with no spurious stat failures, the checksum
ledger is exactly the concatenation, in input order, of one line per entry
whose source is a regular file; directory entries contribute nothing. -/
theorem c4_ledger_one_line_per_regular_file :
    ∀ (now : Nat) (files : List File) (fs : FS) (r : DataResult),
      (∀ f ∈ files, statOk fs f = true) →
      createDataTarGz now files fs = .ok r →
      r.md5sums = ledgerOf fs files :=
  fun now files fs r hstat hok =>
    (createDataTarGz_ok_spec now fs files r hstat hok).1

set_option maxRecDepth 100000 in
/-- C4 witness: the ledger equation evaluated on a regular file plus a
directory. -/
theorem c4_ledger_one_line_per_regular_file_witness :
    ((createDataTarGz 7 mixedFiles smallFS).toOption.getD
        ⟨[], "", 0⟩).md5sums = ledgerOf smallFS mixedFiles :=
  c4_ledger_one_line_per_regular_file 7 mixedFiles smallFS _
    (by decide) (by decide)

/-- C5: on a successful build with no spurious stat failures, the returned
installed size is the sum of the on-disk byte sizes of the regular-file
entries, and is zero when no entry is a regular file. -/
theorem c5_installed_size_is_sum_of_regular_sizes :
    ∀ (now : Nat) (files : List File) (fs : FS) (r : DataResult),
      (∀ f ∈ files, statOk fs f = true) →
      createDataTarGz now files fs = .ok r →
      r.instSize = ((files.filter (regFile fs)).map (srcSize fs)).sum
      ∧ (files.filter (regFile fs) = [] → r.instSize = 0) := by
  intro now files fs r hstat hok
  have h := (createDataTarGz_ok_spec now fs files r hstat hok).2
  exact ⟨h, fun hnil => by rw [h, hnil]; rfl⟩

set_option maxRecDepth 100000 in
/-- C5 witness: the size equation evaluated on a regular file plus a
directory. -/
theorem c5_installed_size_is_sum_of_regular_sizes_witness :
    ((createDataTarGz 7 mixedFiles smallFS).toOption.getD
        ⟨[], "", 0⟩).instSize
      = ((mixedFiles.filter (regFile smallFS)).map (srcSize smallFS)).sum
    ∧ (mixedFiles.filter (regFile smallFS) = [] →
        ((createDataTarGz 7 mixedFiles smallFS).toOption.getD
            ⟨[], "", 0⟩).instSize = 0) :=
  c5_installed_size_is_sum_of_regular_sizes 7 mixedFiles smallFS _
    (by decide) (by decide)

/-- C3: builds are reproducible — the output is a function of the
timestamp, metadata, entry list and the contents of the listed source
paths alone (two filesystems agreeing on those paths give identical
output), and every archive-member header in all three layers (outer `ar`
members, control tar entries, data tar entries) carries the one shared
build timestamp. -/
theorem c3_reproducible_and_single_timestamp :
    (∀ (now : Nat) (info : Info) (files : List File) (fs1 fs2 : FS),
        (∀ f ∈ files, fs1 f.src = fs2 f.src) →
        Package now info files fs1 = Package now info files fs2)
    ∧ (∀ (now : Nat) (info : Info) (files : List File) (fs : FS) (d : Deb),
        Package now info files fs = .ok d →
        ∀ t ∈ allMtimes d, t = now) := by
  constructor
  · intro now info files fs1 fs2 hag
    simp only [Package, createDataTarGz_congr now files fs1 fs2 hag]
  · intro now info files fs d hok
    cases hr : createDataTarGz now files fs with
    | error e =>
      rw [Package_error now info files fs e hr] at hok; cases hok
    | ok r =>
      rw [Package_ok now info files fs r hr] at hok
      cases hok
      intro t ht
      simp only [allMtimes, addArFile, createControl, List.map_cons,
        List.map_nil, List.flatten, List.mem_append, List.mem_cons,
        List.append_nil, List.not_mem_nil, or_false] at ht
      by_cases hmem : t ∈ List.map (fun e => e.header.mtime) r.entries
      · rcases List.mem_map.mp hmem with ⟨e, he, rfl⟩
        exact createDataTarGz_entries_mtime now fs files r hr e he
      · tauto

/-- C3 witness: the frame part applied at a concrete input — a filesystem
with one extra unrelated file yields the identical build. -/
theorem c3_reproducible_and_single_timestamp_witness :
    Package 7 demoInfo [⟨"/tmp/a", "./x"⟩] smallFS
      = Package 7 demoInfo [⟨"/tmp/a", "./x"⟩] smallFS2 :=
  c3_reproducible_and_single_timestamp.1 7 demoInfo
    [⟨"/tmp/a", "./x"⟩] smallFS smallFS2 (by decide)

/-- C7: every successful build consists of the `ar` global header followed
by exactly three members in fixed order — `debian-binary` with the literal
4-byte content `"2.0\n"`, then the control archive, then the data archive —
each header carrying the member name, its body byte length, the fixed mode
`0644` and the shared build timestamp. -/
theorem c7_outer_container_three_members :
    ∀ (now : Nat) (info : Info) (files : List File) (fs : FS) (d : Deb),
      Package now info files fs = .ok d →
      ∃ cb db,
        d.global = strBytes "!<arch>\n" ∧
        d.members =
          [⟨"debian-binary", 4, 0o644, now, .raw (strBytes "2.0\n")⟩,
           ⟨"control.tar.gz", (tarGzBytes cb).length, 0o644, now, .targz cb⟩,
           ⟨"data.tar.gz", (tarGzBytes db).length, 0o644, now, .targz db⟩] := by
  intro now info files fs d hok
  cases hr : createDataTarGz now files fs with
  | error e =>
    rw [Package_error now info files fs e hr] at hok; cases hok
  | ok r =>
    rw [Package_ok now info files fs r hr] at hok
    cases hok
    exact ⟨createControl now r.instSize r.md5sums info, r.entries, rfl, rfl⟩

set_option maxRecDepth 100000 in
/-- C7 witness: member names of a concrete successful build, in order. -/
theorem c7_outer_container_three_members_witness :
    ((Package 7 demoInfo [⟨"/tmp/a", "./x"⟩] smallFS).toOption.getD
        ⟨[], []⟩).members.map (·.name)
      = ["debian-binary", "control.tar.gz", "data.tar.gz"] := by
  have hok : Package 7 demoInfo [⟨"/tmp/a", "./x"⟩] smallFS
      = .ok ((Package 7 demoInfo [⟨"/tmp/a", "./x"⟩] smallFS).toOption.getD
        ⟨[], []⟩) := by decide
  obtain ⟨cb, db, hg, hm⟩ := c7_outer_container_three_members 7 demoInfo
    [⟨"/tmp/a", "./x"⟩] smallFS _ hok
  rw [hm]
  rfl

/-- C8: the control archive always holds exactly two tar entries in fixed
order — the rendered control record, then the checksum ledger — both
stamped with the shared build timestamp and the fixed mode `0644`. -/
theorem c8_control_archive_two_entries :
    ∀ (now sz : Nat) (sums : String) (info : Info),
      (createControl now sz sums info).map (·.header.name)
          = ["control", "md5sums"]
      ∧ (createControl now sz sums info).map (·.header.mtime) = [now, now]
      ∧ (createControl now sz sums info).map (·.header.mode)
          = [0o644, 0o644]
      ∧ (createControl now sz sums info).map (·.body)
          = [strBytes (renderControl info (sz / 1024)), strBytes sums] := by
  intro now sz sums info
  refine ⟨rfl, rfl, rfl, ?_⟩
  simp only [createControl, List.map_cons, List.map_nil]

set_option maxRecDepth 100000 in
set_option maxHeartbeats 1000000 in
/-- C9: depends and conflicts are each rendered on a single control line
with elements joined by `", "` and blank padding trimmed; `["a", "b"]`
renders the exact line `"Depends: a, b"` and `[]` renders `"Depends: "`. -/
theorem c9_depends_conflicts_rendering :
    (∀ (info : Info) (kib : Nat), ∃ pre post : String,
        renderControl info kib
          = pre ++ ("Depends: " ++ joinStrs info.depends ++ "\n"
              ++ "Conflicts: " ++ joinStrs info.conflicts ++ "\n") ++ post)
    ∧ joinStrs ["a", "b"] = "a, b"
    ∧ joinStrs [] = ""
    ∧ "Depends: a, b" ∈ linesOf (renderControl
        { demoInfo with depends := ["a", "b"] } 4)
    ∧ "Depends: " ∈ linesOf (renderControl
        { demoInfo with depends := [] } 4) := by
  refine ⟨?_, by decide, by decide, by decide, by decide⟩
  intro info kib
  refine ⟨"Package: " ++ info.name ++ "\n" ++ "Version: " ++ info.version
      ++ "\n" ++ "Section: " ++ info.sect ++ "\n" ++ "Priority: "
      ++ info.priority ++ "\n" ++ "Architecture: " ++ info.arch ++ "\n"
      ++ "Maintainer: " ++ info.maintainer ++ "\n" ++ "Vendor: "
      ++ info.vendor ++ "\n" ++ "Installed-Size: " ++ toString kib ++ "\n"
      ++ "Replaces: " ++ info.replaces ++ "\n" ++ "Provides: "
      ++ info.provides ++ "\n",
    "Homepage: " ++ info.homepage ++ "\n" ++ "Description: "
      ++ info.description ++ "\n", ?_⟩
  simp only [renderControl, String.append_assoc]

set_option maxRecDepth 100000 in
set_option maxHeartbeats 2000000 in
/-- C6: the control record renders the installed size as the byte total
divided by 1024 with truncating division, and the 4096-byte single-file
scenario renders the exact line `"Installed-Size: 4"`. -/
theorem c6_installed_size_rendered_in_kib :
    (∀ (now sz : Nat) (sums : String) (info : Info), ∃ pre post : String,
        (createControl now sz sums info).map (·.body)
          = [strBytes (pre ++ ("Installed-Size: " ++ toString (sz / 1024)
              ++ "\n") ++ post), strBytes sums])
    ∧ "Installed-Size: 4"
        ∈ debControlLines (Package 7 demoInfo demoFiles demoFS) := by
  constructor
  · intro now sz sums info
    refine ⟨"Package: " ++ info.name ++ "\n" ++ "Version: " ++ info.version
        ++ "\n" ++ "Section: " ++ info.sect ++ "\n" ++ "Priority: "
        ++ info.priority ++ "\n" ++ "Architecture: " ++ info.arch ++ "\n"
        ++ "Maintainer: " ++ info.maintainer ++ "\n" ++ "Vendor: "
        ++ info.vendor ++ "\n",
      "Replaces: " ++ info.replaces ++ "\n" ++ "Provides: "
        ++ info.provides ++ "\n" ++ "Depends: " ++ joinStrs info.depends
        ++ "\n" ++ "Conflicts: " ++ joinStrs info.conflicts ++ "\n"
        ++ "Homepage: " ++ info.homepage ++ "\n" ++ "Description: "
        ++ info.description ++ "\n", ?_⟩
    have hmap : (createControl now sz sums info).map (·.body)
        = [strBytes (renderControl info (sz / 1024)), strBytes sums] := by
      simp only [createControl, List.map_cons, List.map_nil]
    rw [hmap]
    have h : renderControl info (sz / 1024)
        = "Package: " ++ info.name ++ "\n" ++ "Version: " ++ info.version
          ++ "\n" ++ "Section: " ++ info.sect ++ "\n" ++ "Priority: "
          ++ info.priority ++ "\n" ++ "Architecture: " ++ info.arch ++ "\n"
          ++ "Maintainer: " ++ info.maintainer ++ "\n" ++ "Vendor: "
          ++ info.vendor ++ "\n"
          ++ ("Installed-Size: " ++ toString (sz / 1024) ++ "\n")
          ++ ("Replaces: " ++ info.replaces ++ "\n" ++ "Provides: "
            ++ info.provides ++ "\n" ++ "Depends: " ++ joinStrs info.depends
            ++ "\n" ++ "Conflicts: " ++ joinStrs info.conflicts ++ "\n"
            ++ "Homepage: " ++ info.homepage ++ "\n" ++ "Description: "
            ++ info.description ++ "\n") := by
      simp only [renderControl, String.append_assoc]
    rw [h]
  · have h : createDataTarGz 7 demoFiles demoFS =
        .ok ⟨[⟨⟨"./usr/bin/f", 4096, 420, 7⟩, List.replicate 4096 97⟩],
             emptyDigestLine ⟨"/tmp/f.txt", "./usr/bin/f"⟩, 4096⟩ := by
      rw [show demoFiles = [⟨"/tmp/f.txt", "./usr/bin/f"⟩] from rfl]
      rw [createDataTarGz_reg 7 _ _ _
        ⟨false, List.replicate 4096 97, 420, false⟩ rfl rfl (by decide)]
      rw [createDataTarGz_nil]
      simp only [List.length_replicate, Nat.add_zero, String.append_empty]
    rw [Package_ok 7 demoInfo demoFiles demoFS _ h]
    decide

end DebPkg
